import Mathlib

/-!
Verification of the "Summarize with AI" subsystem embedded in
`src/unlock-any-medium-article.user.js` (final embedded copy, the one the
design document describes): model catalog and resolution, custom-model
store, request building, transport timeout selection, and response
normalization.

JavaScript values that flow through the code (parsed JSON bodies, model
parameter objects, persisted blobs) are modelled by the inductive `JVal`,
with `undefined` as an explicit constructor so that optional chaining and
truthiness can be translated literally.  JavaScript exceptions (`throw`)
are modelled by `Except String`.
-/

/-- A JavaScript value as it occurs in this script: `undefined`, `null`,
booleans, (integer) numbers, strings, arrays and plain objects.  All
numeric literals in the script are integers, so numbers are `Int`. -/
inductive JVal where
  | undefined : JVal
  | null : JVal
  | bool : Bool → JVal
  | num : Int → JVal
  | str : String → JVal
  | arr : List JVal → JVal
  | obj : List (String × JVal) → JVal
deriving Inhabited

/-- A JavaScript object body: an ordered association list of fields.
JavaScript objects built by the script never repeat a key; where a proof
needs that invariant it takes it as an explicit `Nodup` hypothesis. -/
abbrev JObj := List (String × JVal)

namespace JObj

/-- Field lookup (first occurrence), `o[k]` on a plain object. -/
def get : JObj → String → Option JVal
  | [], _ => none
  | (k', v') :: t, k => if k' = k then some v' else get t k

/-- JavaScript property assignment `o[k] = v`: overwrite in place when the
key exists, otherwise append (matching JS key-insertion order). -/
def insert : JObj → String → JVal → JObj
  | [], k, v => [(k, v)]
  | (k', v') :: t, k, v => if k' = k then (k', v) :: t else (k', v') :: insert t k v

/-- JavaScript `delete o[k]`. -/
def erase (o : JObj) (k : String) : JObj :=
  o.filter (fun kv => kv.1 ≠ k)

/-- JavaScript object spread `{ ...a, ...b }`: start from `a`, then assign
every field of `b` left to right. -/
def spread (a b : JObj) : JObj :=
  b.foldl (fun acc kv => acc.insert kv.1 kv.2) a

end JObj

namespace JVal

/-- JavaScript truthiness. -/
def truthy : JVal → Bool
  | .undefined => false
  | .null => false
  | .bool b => b
  | .num n => n != 0
  | .str s => s != ""
  | .arr _ => true
  | .obj _ => true

/-- Optional-chained property access `v?.k`: `undefined` on `undefined` /
`null`, field lookup on objects, `undefined` on every other value (none of
the properties this script reads exists on a primitive or an array). -/
def oprop : JVal → String → JVal
  | .obj fs, k => (JObj.get fs k).getD .undefined
  | _, _ => .undefined

/-- Plain property access `v.k`: a TypeError on `undefined` / `null`,
otherwise as `oprop`. -/
def prop : JVal → String → Except String JVal
  | .undefined, k => .error ("TypeError: Cannot read properties of undefined (reading " ++ k ++ ")")
  | .null, k => .error ("TypeError: Cannot read properties of null (reading " ++ k ++ ")")
  | v, k => .ok (oprop v k)

/-- Optional-chained index access `v?.[i]` as used on the `candidates` /
`choices` arrays. -/
def oindex : JVal → Nat → JVal
  | .arr xs, i => (xs.get? i).getD .undefined
  | _, _ => .undefined

end JVal

mutual

/-- Template-literal stringification of an interpolated value.  Arrays
stringify as their comma-joined elements, objects as the usual tag. -/
def JVal.display : JVal → String
  | .undefined => "undefined"
  | .null => "null"
  | .bool true => "true"
  | .bool false => "false"
  | .num n => toString n
  | .str s => s
  | .arr xs => JVal.displayArr xs
  | .obj _ => "[object Object]"

/-- Array elements joined with commas (`Array.prototype.toString`). -/
def JVal.displayArr : List JVal → String
  | [] => ""
  | [x] => JVal.display x
  | x :: xs => JVal.display x ++ "," ++ JVal.displayArr xs

end

/-- ASCII lowercasing, `s.toLowerCase()` for the identifiers the script
compares (all ASCII). -/
def jsToLower (s : String) : String :=
  String.mk (s.data.map Char.toLower)

/-- `s.includes(sub)`: substring containment. -/
def jsIncludes (s sub : String) : Bool :=
  (List.range (s.length + 1)).any (fun i => sub.toList.isPrefixOf (s.toList.drop i))

section JObjLemmas

theorem JObj.get_insert_self (o : JObj) (k : String) (v : JVal) :
    (o.insert k v).get k = some v := by
  induction o with
  | nil => simp [JObj.insert, JObj.get]
  | cons kv t ih =>
    by_cases h : kv.1 = k
    · simp [JObj.insert, JObj.get, h]
    · simp [JObj.insert, JObj.get, h, ih]

theorem JObj.get_insert_ne (o : JObj) (k k' : String) (v : JVal) (h : k' ≠ k) :
    (o.insert k' v).get k = o.get k := by
  induction o with
  | nil => simp [JObj.insert, JObj.get, h]
  | cons kv t ih =>
    by_cases hk : kv.1 = k'
    · simp [JObj.insert, JObj.get, hk, h]
    · simp only [JObj.insert, JObj.get, hk, if_false]
      by_cases hk2 : kv.1 = k
      · simp [JObj.get, hk2]
      · simp [JObj.get, hk2, ih]

theorem JObj.get_erase_self (o : JObj) (k : String) :
    (o.erase k).get k = none := by
  induction o with
  | nil => simp [JObj.erase, JObj.get]
  | cons kv t ih =>
    by_cases h : kv.1 = k
    · simpa [JObj.erase, JObj.get, h] using ih
    · simpa [JObj.erase, JObj.get, h] using ih

theorem JObj.spread_nil (a : JObj) : a.spread [] = a := rfl

theorem JObj.get_eq_none_of_not_mem (o : JObj) (k : String)
    (h : k ∉ o.map Prod.fst) : JObj.get o k = none := by
  induction o with
  | nil => rfl
  | cons kv t ih =>
    simp only [List.map_cons, List.mem_cons, not_or] at h
    have h1 : kv.1 ≠ k := fun hc => h.1 hc.symm
    simp only [JObj.get, h1, if_false]
    exact ih h.2

theorem JObj.get_spread (a b : JObj) (k : String) (hb : (b.map Prod.fst).Nodup) :
    (a.spread b).get k = ((JObj.get b k).or (a.get k)) := by
  induction b generalizing a with
  | nil => simp [JObj.spread, JObj.get]
  | cons kv t ih =>
    simp only [List.map_cons, List.nodup_cons] at hb
    have hrec := ih (a.insert kv.1 kv.2) hb.2
    have hstep : (a.spread (kv :: t)) = ((a.insert kv.1 kv.2).spread t) := rfl
    rw [hstep, hrec]
    by_cases h : kv.1 = k
    · subst h
      have ht : JObj.get t kv.1 = none :=
        JObj.get_eq_none_of_not_mem t kv.1 hb.1
      rw [ht, JObj.get_insert_self]
      simp [JObj.get]
    · rw [JObj.get_insert_ne _ _ _ _ h]
      simp [JObj.get, h]

end JObjLemmas

/-! ## Model catalog (`MODEL_GROUPS`) -/

/-- `DEFAULT_MAX_TOKENS` -/
def DEFAULT_MAX_TOKENS : Int := 1000
/-- `HIGH_MAX_TOKENS` -/
def HIGH_MAX_TOKENS : Int := 1500
/-- `DEFAULT_TIMEOUT`: 60 seconds for non-thinking models (milliseconds). -/
def DEFAULT_TIMEOUT : Nat := 60000
/-- `THINKING_TIMEOUT`: 300 seconds for thinking models (milliseconds). -/
def THINKING_TIMEOUT : Nat := 300000

/-- One built-in entry of a `MODEL_GROUPS` list: `{id, name, params?}`. -/
structure BuiltinModel where
  id : String
  name : String
  params : Option JObj
deriving Inhabited

/-- One provider group of `MODEL_GROUPS`. -/
structure ModelGroup where
  name : String
  baseUrl : String
  models : List BuiltinModel
  defaultParams : JObj
deriving Inhabited

/-- The `openai` group of `MODEL_GROUPS`. -/
def openaiGroup : ModelGroup :=
  { name := "OpenAI"
    baseUrl := "https://api.openai.com/v1/chat/completions"
    models :=
      [ ⟨"o4-mini", "o4 mini (better)",
          some [("max_completion_tokens", .num HIGH_MAX_TOKENS), ("reasoning_effort", .str "low")]⟩
      , ⟨"o3-mini", "o3 mini",
          some [("max_completion_tokens", .num HIGH_MAX_TOKENS), ("reasoning_effort", .str "low")]⟩
      , ⟨"gpt-4.1", "GPT-4.1", none⟩
      , ⟨"gpt-4.1-mini", "GPT-4.1 mini", none⟩
      , ⟨"gpt-4.1-nano", "GPT-4.1 nano (faster)", none⟩ ]
    defaultParams := [("max_completion_tokens", .num DEFAULT_MAX_TOKENS)] }

/-- The `gemini` group of `MODEL_GROUPS`. -/
def geminiGroup : ModelGroup :=
  { name := "Gemini"
    baseUrl := "https://generativelanguage.googleapis.com/v1beta/models/"
    models :=
      [ ⟨"gemini-flash-lite-latest", "Gemini Flash Lite (faster)",
          some [("maxOutputTokens", .num HIGH_MAX_TOKENS),
                ("thinkingConfig", .obj [("thinkingBudget", .num 0)])]⟩
      , ⟨"gemini-flash-latest", "Gemini Flash",
          some [("maxOutputTokens", .num HIGH_MAX_TOKENS),
                ("thinkingConfig", .obj [("thinkingBudget", .num 0)])]⟩
      , ⟨"gemini-pro-latest", "Gemini Pro (better)",
          some [("maxOutputTokens", .num HIGH_MAX_TOKENS)]⟩ ]
    defaultParams := [("maxOutputTokens", .num DEFAULT_MAX_TOKENS)] }

/-- `MODEL_GROUPS`, in declaration (iteration) order: `openai`, then
`gemini`. -/
def MODEL_GROUPS : List (String × ModelGroup) :=
  [("openai", openaiGroup), ("gemini", geminiGroup)]

/-- `MODEL_GROUPS[service]` lookup. -/
def modelGroupFor (service : String) : Option ModelGroup :=
  (MODEL_GROUPS.find? (fun g => g.1 = service)).map (·.2)

/-- A stored custom model: `{id, service, supportsThinking?}` (the
`supportsThinking` field exists only when it was saved). -/
structure CustomModel where
  id : String
  service : String
  supportsThinking : Option Bool
deriving DecidableEq, Inhabited

/-- The object `getActiveModelConfig` returns: a descriptor spread together
with `service` and `isCustom` (and, for custom models, the stored
`supportsThinking`; built-ins carry no such field, i.e. `none`). -/
structure ModelConfig where
  id : String
  name : Option String
  params : Option JObj
  service : String
  isCustom : Bool
  supportsThinking : Option Bool
deriving Inhabited

/-- The config produced for a built-in model found in group `svc`. -/
def builtinConfig (svc : String) (m : BuiltinModel) : ModelConfig :=
  { id := m.id, name := some m.name, params := m.params,
    service := svc, isCustom := false, supportsThinking := none }

/-- The config produced for a stored custom model (`{...customConfig,
isCustom: true}`; its `params` is undefined). -/
def customConfig (c : CustomModel) : ModelConfig :=
  { id := c.id, name := none, params := none,
    service := c.service, isCustom := true, supportsThinking := c.supportsThinking }

/-- `getActiveModelConfig()`: iterate the provider groups in declaration
order looking for a built-in whose `id` equals (strictly, `===`) the active
id; only if none matches, search the custom list the same way. -/
def getActiveModelConfig (customModels : List CustomModel) (activeModel : String) :
    Option ModelConfig :=
  match MODEL_GROUPS.findSome?
      (fun sg => ((sg.2.models.find? (fun m => m.id = activeModel)).map
        (fun m => builtinConfig sg.1 m))) with
  | some cfg => some cfg
  | none =>
      (customModels.find? (fun m => m.id = activeModel)).map customConfig

/-! ## Timeout selection (`getRequestTimeout`, `sendApiRequest`) -/

/-- `/^o[34]/i.test(id)`. -/
def testO3orO4 (id : String) : Bool :=
  match id.toList with
  | c0 :: c1 :: _ => (c0 = 'o' || c0 = 'O') && (c1 = '3' || c1 = '4')
  | [c0] => false && (c0 = 'o')
  | [] => false

/-- `getRequestTimeout(modelConfig)`. -/
def getRequestTimeout (modelConfig : ModelConfig) : Nat :=
  -- `modelConfig.params && !modelConfig.params.thinkingConfig`
  let hasThinking :=
    match modelConfig.params with
    | none => false
    | some ps => !(JVal.truthy ((JObj.get ps "thinkingConfig").getD .undefined))
  let isProModel := jsIncludes (jsToLower modelConfig.id) "pro"
  let isO3orO4 := testO3orO4 modelConfig.id
  let customWithThinking :=
    modelConfig.isCustom && (modelConfig.supportsThinking = some true)
  if hasThinking || isProModel || isO3orO4 || customWithThinking then
    THINKING_TIMEOUT
  else
    DEFAULT_TIMEOUT

/-- The `timeout` value `sendApiRequest(service, apiKey, payload,
modelConfig)` passes to the HTTP layer: `getRequestTimeout(modelConfig)`,
whatever the service. -/
def sendApiRequestTimeout (service : String) (modelConfig : ModelConfig) : Nat :=
  let _ := service
  getRequestTimeout modelConfig

/-! ## Custom model store (`addCustomModel`, `handleModelRemoval`,
`getCustomModels`) -/

/-- Result of `addCustomModel`: the (possibly updated) in-memory
`customModels` array and the value written to the persisted blob, when a
write happened (`GM.setValue(CUSTOM_MODELS_KEY, ...)`). -/
structure AddResult where
  customModels : List CustomModel
  persistedWrite : Option (List CustomModel)
deriving DecidableEq, Inhabited

/-- `addCustomModel(service, modelId, supportsThinking)`. -/
def addCustomModel (customModels : List CustomModel) (service modelId : String)
    (supportsThinking : Option Bool) : AddResult :=
  let existsInCustom := customModels.any (fun m =>
    m.service = service && jsToLower m.id = jsToLower modelId)
  -- `MODEL_GROUPS[service]?.models.some(...)`: `undefined` (falsy) when the
  -- service key is absent.
  let existsInStandard :=
    match (MODEL_GROUPS.find? (fun g => g.1 = service)).map (·.2) with
    | some g => g.models.any (fun m => jsToLower m.id = jsToLower modelId)
    | none => false
  if existsInCustom || existsInStandard then
    ⟨customModels, none⟩
  else
    -- `newModel = { id: modelId, service }`; `supportsThinking` is added
    -- only for gemini and only when it is an actual boolean.
    let newModel : CustomModel :=
      { id := modelId, service := service,
        supportsThinking := if service = "gemini" then supportsThinking else none }
    let newList := customModels ++ [newModel]
    ⟨newList, some newList⟩

/-- Result of the confirmed branch of `handleModelRemoval`: new in-memory
list, the blob written for it, the resulting `activeModel`, and the
`last_used_model` write when one happened. -/
structure RemovalResult where
  customModels : List CustomModel
  persistedModels : List CustomModel
  activeModel : String
  persistedActive : Option String
deriving DecidableEq, Inhabited

/-- `handleModelRemoval(modelId, service)` after the user confirms the
dialog (the unconfirmed path changes nothing). -/
def handleModelRemoval (customModels : List CustomModel) (activeModel : String)
    (modelId service : String) : RemovalResult :=
  let newModels := customModels.filter (fun m =>
    !(jsToLower m.id = jsToLower modelId && m.service = service))
  if activeModel = modelId then
    { customModels := newModels, persistedModels := newModels,
      activeModel := "gemini-flash-lite-latest",
      persistedActive := some "gemini-flash-lite-latest" }
  else
    { customModels := newModels, persistedModels := newModels,
      activeModel := activeModel, persistedActive := none }

/-- `typeof m === 'object'` (true for plain objects, arrays and `null`). -/
def jsTypeofIsObject : JVal → Bool
  | .null => true
  | .arr _ => true
  | .obj _ => true
  | _ => false

/-- `typeof v === 'boolean'`. -/
def jsTypeofIsBoolean : JVal → Bool
  | .bool _ => true
  | _ => false

/-- `typeof v === 'undefined'`. -/
def jsTypeofIsUndefined : JVal → Bool
  | .undefined => true
  | _ => false

/-- `v === s` against a string literal (strict equality). -/
def jsStrictEqStr (v : JVal) (s : String) : Bool :=
  match v with
  | .str s' => s' = s
  | _ => false

/-- The `every` predicate of `getCustomModels`:
`typeof m === 'object' && m.id && m.service && (m.service !== 'gemini' ||
typeof m.supportsThinking === 'boolean' || typeof m.supportsThinking ===
'undefined')`.  Property access on a `null` element throws, hence
`Except`. -/
def customModelElemOk (m : JVal) : Except String Bool := do
  if !jsTypeofIsObject m then
    return false
  let idv ← m.prop "id"
  if !idv.truthy then
    return false
  let sv ← m.prop "service"
  if !sv.truthy then
    return false
  if !(jsStrictEqStr sv "gemini") then
    return true
  let st ← m.prop "supportsThinking"
  return (jsTypeofIsBoolean st || jsTypeofIsUndefined st)

/-- `Array.prototype.every` with a possibly-throwing predicate, left to
right, stopping at the first `false`. -/
def jsEvery (p : JVal → Except String Bool) : List JVal → Except String Bool
  | [] => .ok true
  | x :: t => do
    let b ← p x
    if b then jsEvery p t else pure false

/-- Result of `getCustomModels()`: the returned list and the blob written
back to `CUSTOM_MODELS_KEY` when the function reset the store. -/
structure LoadResult where
  models : List JVal
  persistedWrite : Option String
deriving Inhabited

/-- `getCustomModels()`, as a function of the outcome of
`JSON.parse(storedModels)` (`Except.error` = the parse threw; the
`GM.getValue` default `'[]'` parses to an empty array). -/
def getCustomModels (parseResult : Except String JVal) : LoadResult :=
  match parseResult with
  | .error _ => ⟨[], some "[]"⟩          -- catch: reset the blob, return []
  | .ok (.arr ms) =>
      match jsEvery customModelElemOk ms with
      | .ok true => ⟨ms, none⟩           -- valid: return parsedModels as-is
      | .ok false => ⟨[], some "[]"⟩     -- invalid format: reset, return []
      | .error _ => ⟨[], some "[]"⟩      -- an element threw: caught, reset
  | .ok _ => ⟨[], some "[]"⟩             -- not an array: reset, return []

/-! ## Request building (`buildRequestBody`, `buildChatRequestBody`) -/

/-- One `{role, content}` element of an OpenAI-style `messages` array. -/
structure ChatMessage where
  role : String
  content : String
deriving DecidableEq, Inhabited

/-- One element of a Gemini-style `contents` array: an optional `role` and
the single `parts[0].text` string this script always sends. -/
structure GeminiContent where
  role : Option String
  text : String
deriving DecidableEq, Inhabited

/-- A built request document: either the OpenAI shape
`{model, messages, ...finalParams}` or the Gemini shape
`{contents, generationConfig}`. -/
inductive RequestBody where
  | openaiBody (model : String) (messages : List ChatMessage) (generationParams : JObj)
  | geminiBody (contents : List GeminiContent) (generationConfig : JObj)
deriving Inhabited

/-- The `generationConfig` of `RequestBody.geminiBody` (the merged
parameters of `openaiBody`, whose spread sits at body top level). -/
def RequestBody.generationParams : RequestBody → JObj
  | .openaiBody _ _ ps => ps
  | .geminiBody _ gc => gc

/-- One stored chat turn `{role, content}`. -/
structure ChatTurn where
  role : String
  content : String
deriving DecidableEq, Inhabited

/-- `buildRequestBody(service, {title, content, lang}, modelConfig)`.  The
source first computes `systemPrompt = PROMPT_TEMPLATE(title, content,
lang)`; the template is a fixed text-formatting contract none of the
verified properties depend on, so the already-built prompt string is taken
as the argument here. -/
def buildRequestBody (service : String) (systemPrompt : String)
    (modelConfig : ModelConfig) : RequestBody :=
  if service = "openai" then
    let serviceDefaults := openaiGroup.defaultParams
    let modelSpecificParams := modelConfig.params.getD []
    let finalParams := JObj.spread serviceDefaults modelSpecificParams
    .openaiBody modelConfig.id
      [ ⟨"system", systemPrompt⟩
      , ⟨"user", "Generate the summary as requested."⟩ ]
      finalParams
  else  -- gemini
    let geminiDefaults := geminiGroup.defaultParams
    let modelParamsFromConfig := modelConfig.params.getD []
    let merged := JObj.spread geminiDefaults modelParamsFromConfig
    let finalGenerationConfig :=
      if modelConfig.isCustom then
        -- For custom gemini models `params` is undefined; the stored
        -- `supportsThinking` decides the thinking policy.
        if modelConfig.supportsThinking = some true then
          JObj.erase merged "thinkingConfig"
        else
          JObj.insert merged "thinkingConfig" (.obj [("thinkingBudget", .num 0)])
      else merged
    .geminiBody [⟨none, systemPrompt⟩] finalGenerationConfig

/-- `buildChatRequestBody(service, modelConfig)`.  As above, the
`systemContext` string (built from the article title, the last summary and
the language) is taken as an argument; `chatHistory` is the stored turn
list. -/
def buildChatRequestBody (service : String) (systemContext : String)
    (chatHistory : List ChatTurn) (modelConfig : ModelConfig) : RequestBody :=
  if service = "openai" then
    let messages :=
      (⟨"system", systemContext⟩ : ChatMessage) ::
        chatHistory.map (fun m => (⟨m.role, m.content⟩ : ChatMessage))
    let serviceDefaults := openaiGroup.defaultParams
    let modelSpecificParams := modelConfig.params.getD []
    let finalParams := JObj.spread serviceDefaults modelSpecificParams
    .openaiBody modelConfig.id messages finalParams
  else  -- gemini
    let contents :=
      (⟨some "user", systemContext⟩ : GeminiContent) ::
      (⟨some "model", "I understand. I will help answer questions about this article."⟩ : GeminiContent) ::
        chatHistory.map (fun m =>
          (⟨some (if m.role = "user" then "user" else "model"), m.content⟩ : GeminiContent))
    let geminiDefaults := geminiGroup.defaultParams
    let modelParamsFromConfig := modelConfig.params.getD []
    let merged := JObj.spread geminiDefaults modelParamsFromConfig
    let finalGenerationConfig :=
      if modelConfig.isCustom then
        if modelConfig.supportsThinking = some true then
          JObj.erase merged "thinkingConfig"
        else
          JObj.insert merged "thinkingConfig" (.obj [("thinkingBudget", .num 0)])
      else merged
    .geminiBody contents finalGenerationConfig

/-! ## Response normalization (`handleApiResponse`) -/

/-- The resolved value `sendApiRequest` hands to `handleApiResponse`:
`{status, data, statusText}` with `data` the best-effort-parsed JSON
body. -/
structure ApiResponse where
  status : Int
  data : JVal
  statusText : String
deriving Inhabited

/-- `a || b`. -/
def jsOr (a b : JVal) : JVal :=
  if a.truthy then a else b

/-- `data?.error?.message || data?.message || statusText || 'Unknown API
error'`, interpolated into the thrown message. -/
def errorDetails (data : JVal) (statusText : String) : String :=
  JVal.display
    (jsOr ((data.oprop "error").oprop "message")
      (jsOr (data.oprop "message")
        (jsOr (.str statusText) (.str "Unknown API error"))))

/-- The arrow body of
`candidate.safetyRatings?.map(r => `$\x7br.category\x7d: $\x7br.probability\x7d`)`. -/
def ratingPair (r : JVal) : Except String String := do
  let c ← r.prop "category"
  let p ← r.prop "probability"
  pure (c.display ++ ": " ++ p.display)

/-- `Array.prototype.map` over the ratings, left to right, propagating a
thrown TypeError. -/
def mapRatings : List JVal → Except String (List String)
  | [] => .ok []
  | r :: t => do
    let s ← ratingPair r
    let rest ← mapRatings t
    pure (s :: rest)

/-- `Array.prototype.join(sep)`. -/
def jsJoin (sep : String) : List String → String
  | [] => ""
  | [x] => x
  | x :: xs => x ++ sep ++ jsJoin sep xs

/-- `candidate.safetyRatings?.map(...).join(', ')`: `undefined` (here
`none`) when `safetyRatings` is nullish, a TypeError when it is neither
nullish nor an array. -/
def safetyJoin (sr : JVal) : Except String (Option String) :=
  match sr with
  | .undefined => .ok none
  | .null => .ok none
  | .arr rs => (mapRatings rs).map (fun l => some (jsJoin ", " l))
  | _ => .error "TypeError: candidate.safetyRatings.map is not a function"

/-- `v?.length`: array and string lengths; on a plain object the `length`
field; `undefined` elsewhere. -/
def olength : JVal → JVal
  | .arr xs => .num xs.length
  | .str s => .num s.length
  | .obj fs => (JObj.get fs "length").getD .undefined
  | _ => .undefined

/-- `x > 0` where `x` is a `?.length` result: number comparison;
`undefined > 0` is `false`. -/
def jsGtZero : JVal → Bool
  | .num n => 0 < n
  | _ => false

/-- Plain index access `v[i]`: TypeError on nullish `v`. -/
def JVal.index (v : JVal) (i : Nat) : Except String JVal :=
  match v with
  | .undefined => .error "TypeError: Cannot read properties of undefined (reading 0)"
  | .null => .error "TypeError: Cannot read properties of null (reading 0)"
  | v => .ok (v.oindex i)

/-- `/ \x7b2,\x7d/g`-style space collapsing: every maximal run of spaces
becomes a single space (runs of one are unchanged, as with the regex). -/
def collapseSpaces : List Char → List Char
  | [] => []
  | ' ' :: rest => ' ' :: collapseSpaces (rest.dropWhile (fun c => c = ' '))
  | c :: rest => c :: collapseSpaces rest
termination_by l => l.length
decreasing_by
  · simp_wf
    have := (List.dropWhile_sublist (l := rest) (fun c => decide (c = ' '))).length_le
    omega
  · simp_wf

/-- `rawSummary.replace(/\n/g, ' ').replace(/ \x7b2,\x7d/g, ' ').trim()`. -/
def jsCleanSummary (s : String) : String :=
  let replacedNl := s.map (fun c => if c = '\n' then ' ' else c)
  (String.mk (collapseSpaces replacedNl.toList)).trim

/-- The service branches of `handleApiResponse` that compute `rawSummary`
(initially `''`): the openai branch assigns `choice?.message?.content`
unconditionally; the gemini branch throws on a "SAFETY" finish reason and
otherwise assigns `candidate.content.parts[0].text` when the guard holds;
any other service leaves the initial `''`. -/
def serviceRawSummary (service : String) (data : JVal) : Except String JVal :=
  if service = "openai" then
    -- `choice = data?.choices?.[0]; rawSummary = choice?.message?.content`
    let choice := (data.oprop "choices").oindex 0
    pure ((choice.oprop "message").oprop "content")
  else if service = "gemini" then do
    let candidate := (data.oprop "candidates").oindex 0
    let finishReason := candidate.oprop "finishReason"
    if jsStrictEqStr finishReason "SAFETY" then do
      let sr ← candidate.prop "safetyRatings"
      let joined ← safetyJoin sr
      -- `$\x7bsafetyRatings || 'No details'\x7d`
      let srStr :=
        match joined with
        | some s => if s ≠ "" then s else "No details"
        | none => "No details"
      throw ("Content blocked due to safety concerns (" ++ srStr ++ ").")
    else do
      -- (`finishReason === 'MAX_TOKENS'` only logs a warning.)
      -- `candidate?.content?.parts?.length > 0 && candidate.content.parts[0].text`
      if jsGtZero (olength ((candidate.oprop "content").oprop "parts")) then do
        let content ← candidate.prop "content"
        let parts ← content.prop "parts"
        let p0 ← parts.index 0
        let text ← p0.prop "text"
        if text.truthy then pure text
        else pure (JVal.str "")          -- rawSummary keeps its initial ''
      else pure (JVal.str "")            -- only warning branches run
  else
    pure (JVal.str "")                   -- unknown service: rawSummary stays ''

/-- `handleApiResponse(response, service)`: `.ok cleanedSummary` models the
final `updateSummaryOverlay(cleanedSummary, false)`, `.error msg` models a
`throw new Error(msg)` (all thrown errors are hard failures: the caller
renders the message instead of a summary). -/
def handleApiResponse (response : ApiResponse) (service : String) :
    Except String String := do
  let status := response.status
  let data := response.data
  let statusText := response.statusText
  if status < 200 || 300 ≤ status then
    throw ("API Error (" ++ toString status ++ "): " ++ errorDetails data statusText)
  let rawSummary : JVal ← serviceRawSummary service data
  if !rawSummary.truthy && !(data.oprop "error").truthy then
    throw "API response did not contain a valid summary."
  match rawSummary with
  | .str s => pure (jsCleanSummary s)
  | _ => throw "TypeError: rawSummary.replace is not a function"

/-! ## Claim theorems -/

theorem findSome?_isSome_of_mem {α β : Type} (f : α → Option β) {l : List α} {a : α}
    (ha : a ∈ l) (hf : (f a).isSome) : (l.findSome? f).isSome := by
  induction l with
  | nil => cases ha
  | cons x t ih =>
    rcases List.mem_cons.mp ha with h | h
    · subst h
      cases hfa : f a with
      | some b => simp [List.findSome?_cons, hfa]
      | none => rw [hfa] at hf; simp at hf
    · cases hfx : f x with
      | some b => simp [List.findSome?_cons, hfx]
      | none => simpa [List.findSome?_cons, hfx] using ih h

/-- C1 counterexample: `'gpt-4.1'` is a built-in openai id and
`'GPT-4.1'` equals it up to letter case, yet resolving `'GPT-4.1'`
(with an empty custom list) finds nothing: the scan compares ids with
`===`, not case-insensitively. -/
theorem c1_counterexample :
    (∃ m ∈ openaiGroup.models, jsToLower m.id = jsToLower "GPT-4.1") ∧
    getActiveModelConfig [] "GPT-4.1" = none := by
  constructor
  · exact ⟨⟨"gpt-4.1", "GPT-4.1", none⟩, by simp [openaiGroup], by decide⟩
  · rfl

/-- C1 (amended): resolution scans the providers' built-in lists first (in
declaration order) and then the custom list, but matches ids exactly
(case-sensitively): when some built-in id equals the active id the result
is a built-in descriptor with that id (so a built-in always beats any
custom entry, whatever the custom list); when no built-in id equals the
active id the result is the first exactly-matching custom entry, or
`none`. -/
theorem c1_exact_resolution (cms : List CustomModel) (activeId : String) :
    ((∃ sg ∈ MODEL_GROUPS, ∃ m ∈ sg.2.models, m.id = activeId) →
      ∃ cfg, getActiveModelConfig cms activeId = some cfg ∧
        cfg.isCustom = false ∧ cfg.id = activeId) ∧
    ((∀ sg ∈ MODEL_GROUPS, ∀ m ∈ sg.2.models, m.id ≠ activeId) →
      getActiveModelConfig cms activeId =
        (cms.find? (fun m => m.id = activeId)).map customConfig) := by
  constructor
  · rintro ⟨sg, hsg, m, hm, hid⟩
    have hsome : ((MODEL_GROUPS.findSome?
        (fun sg => ((sg.2.models.find? (fun m => m.id = activeId)).map
          (fun m => builtinConfig sg.1 m))))).isSome := by
      apply findSome?_isSome_of_mem _ hsg
      have : (sg.2.models.find? (fun m => m.id = activeId)).isSome :=
        List.find?_isSome.mpr ⟨m, hm, by simp [hid]⟩
      simpa using this
    rcases Option.isSome_iff_exists.mp hsome with ⟨cfg, hcfg⟩
    refine ⟨cfg, ?_, ?_, ?_⟩
    · simp [getActiveModelConfig, hcfg]
    · rcases List.exists_of_findSome?_eq_some hcfg with ⟨sg', _, hf⟩
      rcases Option.map_eq_some'.mp hf with ⟨m', _, hb⟩
      rw [← hb]; rfl
    · rcases List.exists_of_findSome?_eq_some hcfg with ⟨sg', _, hf⟩
      rcases Option.map_eq_some'.mp hf with ⟨m', hm', hb⟩
      have := List.find?_some hm'
      rw [← hb]
      simpa [builtinConfig] using this
  · intro hnone
    have hfs : (MODEL_GROUPS.findSome?
        (fun sg => ((sg.2.models.find? (fun m => m.id = activeId)).map
          (fun m => builtinConfig sg.1 m)))) = none := by
      rw [List.findSome?_eq_none_iff]
      intro sg hsg
      have : sg.2.models.find? (fun m => m.id = activeId) = none := by
        rw [List.find?_eq_none]
        intro m hm
        simp [hnone sg hsg m hm]
      simp [this]
    simp [getActiveModelConfig, hfs]

/-- C1 witness: a custom-only id resolves to its custom entry, and a
built-in id resolves (to a built-in), at concrete inputs. -/
theorem c1_exact_resolution_witness :
    getActiveModelConfig [⟨"my-model", "gemini", none⟩] "my-model" =
      some (customConfig ⟨"my-model", "gemini", none⟩) ∧
    getActiveModelConfig [] "gpt-4.1" ≠ none := by
  constructor
  · have h := (c1_exact_resolution [⟨"my-model", "gemini", none⟩] "my-model").2
      (by decide)
    rw [h]; rfl
  · have hmem : ("openai", openaiGroup) ∈ MODEL_GROUPS := by
      simp [ MODEL_GROUPS]
    have hmdl : (⟨"gpt-4.1", "GPT-4.1", none⟩ : BuiltinModel) ∈ openaiGroup.models := by
      simp [openaiGroup]
    have h := (c1_exact_resolution [] "gpt-4.1").1
      ⟨("openai", openaiGroup), hmem, ⟨"gpt-4.1", "GPT-4.1", none⟩, hmdl, rfl⟩
    rcases h with ⟨cfg, hc, _, _⟩
    simp [hc]

/-- The descriptor features `getRequestTimeout` actually keys on: explicit
params lacking a `thinkingConfig`, an id containing "pro"
(case-insensitively), an id starting with "o3"/"o4", or a custom
descriptor whose stored capability flag is `true`. -/
def UsesLongTimeout (cfg : ModelConfig) : Prop :=
  (∃ ps, cfg.params = some ps ∧
    JVal.truthy ((JObj.get ps "thinkingConfig").getD .undefined) = false) ∨
  jsIncludes (jsToLower cfg.id) "pro" = true ∨
  testO3orO4 cfg.id = true ∨
  (cfg.isCustom = true ∧ cfg.supportsThinking = some true)

/-- C2 counterexample: a reachable descriptor that is NOT flagged as using
extended reasoning (a custom gemini model stored with capability flag
`false`, exactly what `addCustomModel('gemini', 'gemini-2.5-pro', false)`
creates) still gets the long five-minute timeout, because its id contains
"pro": the timeout is keyed on id heuristics too, not only on the
capability flag. -/
theorem c2_counterexample :
    addCustomModel [] "gemini" "gemini-2.5-pro" (some false) =
      ⟨[⟨"gemini-2.5-pro", "gemini", some false⟩],
        some [⟨"gemini-2.5-pro", "gemini", some false⟩]⟩ ∧
    (customConfig ⟨"gemini-2.5-pro", "gemini", some false⟩).supportsThinking =
      some false ∧
    (customConfig ⟨"gemini-2.5-pro", "gemini", some false⟩).params = none ∧
    sendApiRequestTimeout "gemini"
      (customConfig ⟨"gemini-2.5-pro", "gemini", some false⟩) = THINKING_TIMEOUT ∧
    THINKING_TIMEOUT ≠ DEFAULT_TIMEOUT := by
  refine ⟨by decide, rfl, rfl, by decide, by decide⟩

/-- C2 (amended): the transport timeout is computed from the resolved
descriptor alone (independent of the provider argument) and takes only the
two values; it is the long five-minute value exactly when the descriptor
has explicit params lacking a `thinkingConfig`, or its id contains "pro"
case-insensitively, or its id starts with "o3"/"o4", or it is a custom
descriptor whose capability flag is `true` — otherwise the short
one-minute value. -/
theorem c2_timeout_from_descriptor (cfg : ModelConfig) :
    (∀ s1 s2 : String, sendApiRequestTimeout s1 cfg = sendApiRequestTimeout s2 cfg) ∧
    (UsesLongTimeout cfg → sendApiRequestTimeout "openai" cfg = THINKING_TIMEOUT) ∧
    (¬ UsesLongTimeout cfg → sendApiRequestTimeout "openai" cfg = DEFAULT_TIMEOUT) ∧
    THINKING_TIMEOUT = 300000 ∧ DEFAULT_TIMEOUT = 60000 := by
  have hval : getRequestTimeout cfg =
      if ((match cfg.params with
            | none => false
            | some ps => !(JVal.truthy ((JObj.get ps "thinkingConfig").getD .undefined)))
          || jsIncludes (jsToLower cfg.id) "pro" || testO3orO4 cfg.id
          || (cfg.isCustom && (cfg.supportsThinking = some true))) then
        THINKING_TIMEOUT
      else DEFAULT_TIMEOUT := rfl
  have hiff : ((match cfg.params with
        | none => false
        | some ps => !(JVal.truthy ((JObj.get ps "thinkingConfig").getD .undefined)))
      || jsIncludes (jsToLower cfg.id) "pro" || testO3orO4 cfg.id
      || (cfg.isCustom && (cfg.supportsThinking = some true))) = true
      ↔ UsesLongTimeout cfg := by
    cases hp : cfg.params with
    | none => simp [UsesLongTimeout, hp, or_assoc]
    | some ps => simp [UsesLongTimeout, hp, or_assoc]
  refine ⟨fun s1 s2 => rfl, ?_, ?_, rfl, rfl⟩
  · intro h
    show getRequestTimeout cfg = THINKING_TIMEOUT
    rw [hval, if_pos (hiff.mpr h)]
  · intro h
    show getRequestTimeout cfg = DEFAULT_TIMEOUT
    rw [hval, if_neg (fun hb => h (hiff.mp hb))]

/-- C2 witness: the built-in `o4-mini` descriptor (explicit params without
`thinkingConfig`) gets the long timeout; the built-in `gpt-4.1` descriptor
gets the short one. -/
theorem c2_timeout_witness :
    sendApiRequestTimeout "openai"
      (builtinConfig "openai" ⟨"o4-mini", "o4 mini (better)",
        some [("max_completion_tokens", .num 1500), ("reasoning_effort", .str "low")]⟩) =
      THINKING_TIMEOUT ∧
    sendApiRequestTimeout "openai"
      (builtinConfig "openai" ⟨"gpt-4.1", "GPT-4.1", none⟩) = DEFAULT_TIMEOUT := by
  constructor
  · exact (c2_timeout_from_descriptor _).2.1
      (Or.inl ⟨[("max_completion_tokens", .num 1500), ("reasoning_effort", .str "low")],
        rfl, by decide⟩)
  · exact (c2_timeout_from_descriptor _).2.2.1 (by
      intro h
      rcases h with ⟨ps, hps, _⟩ | h | h | ⟨h, _⟩
      · exact Option.noConfusion hps
      · revert h; decide
      · revert h; decide
      · revert h; decide)

/-- A parsed blob violating the custom-model schema in the ways the design
names: not an array, or some element object missing `id` or `service`, or
a gemini element whose `supportsThinking` is present — and not the JS
`undefined`, which JSON cannot encode — but not a boolean. -/
def SchemaViolation (v : JVal) : Prop :=
  (∀ ms, v ≠ .arr ms) ∨
  (∃ ms, v = .arr ms ∧ ∃ fs : JObj, JVal.obj fs ∈ ms ∧
    (JObj.get fs "id" = none ∨ JObj.get fs "service" = none ∨
     (JObj.get fs "service" = some (.str "gemini") ∧
      ∃ st, JObj.get fs "supportsThinking" = some st ∧
        (∀ b, st ≠ .bool b) ∧ st ≠ .undefined)))

theorem exceptOkBind {α β ε : Type} (a : α) (f : α → Except ε β) :
    (do let x ← (Except.ok a : Except ε α); f x) = f a := rfl

theorem exceptPureBind {α β ε : Type} (a : α) (f : α → Except ε β) :
    (do let x ← (pure a : Except ε α); f x) = f a := rfl

theorem jsEvery_eq_true_all {p : JVal → Except String Bool} :
    ∀ {ms : List JVal}, jsEvery p ms = .ok true → ∀ m ∈ ms, p m = .ok true := by
  intro ms
  induction ms with
  | nil =>
    intro _ m hm
    cases hm
  | cons x t ih =>
    intro h m hm
    cases hx : p x with
    | error err =>
      rw [jsEvery, hx] at h
      exact Except.noConfusion h
    | ok b =>
      cases b with
      | false =>
        rw [jsEvery, hx] at h
        exact Except.noConfusion h (fun hb => Bool.noConfusion hb)
      | true =>
        rw [jsEvery, hx] at h
        rcases List.mem_cons.mp hm with rfl | hm'
        · exact hx
        · exact ih h m hm'

theorem customModelElemOk_of_violation (fs : JObj)
    (h : JObj.get fs "id" = none ∨ JObj.get fs "service" = none ∨
      (JObj.get fs "service" = some (.str "gemini") ∧
       ∃ st, JObj.get fs "supportsThinking" = some st ∧
         (∀ b, st ≠ .bool b) ∧ st ≠ .undefined)) :
    customModelElemOk (.obj fs) = .ok false := by
  rcases h with hid | hsv | ⟨hsv, st, hst, hnb, hnu⟩
  · simp only [customModelElemOk, JVal.prop, JVal.oprop, hid]
    rfl
  · cases hid : JObj.get fs "id" with
    | none =>
      simp only [customModelElemOk, JVal.prop, JVal.oprop, hid]
      rfl
    | some idv =>
      by_cases hti : idv.truthy
      · simp only [customModelElemOk, JVal.prop, JVal.oprop, hid, hsv,
          Option.getD_some, exceptOkBind, exceptPureBind, hti]
        rfl
      · have hti2 : idv.truthy = false := Bool.eq_false_iff.mpr hti
        simp only [customModelElemOk, JVal.prop, JVal.oprop, hid, hti2,
          Option.getD_some, exceptOkBind, exceptPureBind]
        rfl
  · cases hid : JObj.get fs "id" with
    | none =>
      simp only [customModelElemOk, JVal.prop, JVal.oprop, hid]
      rfl
    | some idv =>
      by_cases hti : idv.truthy
      · have hb : jsTypeofIsBoolean st = false := by
          cases st with
          | bool b => exact (hnb b rfl).elim
          | undefined => exact (hnu rfl).elim
          | null => rfl
          | num n => rfl
          | str s => rfl
          | arr a => rfl
          | obj o => rfl
        have hu : jsTypeofIsUndefined st = false := by
          cases st with
          | undefined => exact (hnu rfl).elim
          | null => rfl
          | bool b => rfl
          | num n => rfl
          | str s => rfl
          | arr a => rfl
          | obj o => rfl
        simp only [customModelElemOk, JVal.prop, JVal.oprop, hid, hsv, hst,
          Option.getD_some, exceptOkBind, exceptPureBind, hti, hb, hu]
        rfl
      · have hti2 : idv.truthy = false := Bool.eq_false_iff.mpr hti
        simp only [customModelElemOk, JVal.prop, JVal.oprop, hid, hti2,
          Option.getD_some, exceptOkBind, exceptPureBind]
        rfl

/-- C3: a persisted custom-model blob that fails the schema (not an array,
an element missing `id` or `service`, or a gemini element whose capability
flag is present but not boolean) loads as the empty list and resets the
blob to `'[]'`; a parse failure does the same; and no call ever partially
loads — the result is either the whole stored array or empty. -/
theorem c3_corrupt_store_resets (v : JVal) (e : String) :
    (SchemaViolation v → getCustomModels (.ok v) = ⟨[], some "[]"⟩) ∧
    getCustomModels (.error e) = ⟨[], some "[]"⟩ ∧
    (∀ pr : Except String JVal, (getCustomModels pr).models = [] ∨
      ∃ ms, pr = .ok (.arr ms) ∧ getCustomModels pr = ⟨ms, none⟩) := by
  refine ⟨?_, rfl, ?_⟩
  · intro hv
    rcases hv with hna | ⟨ms, rfl, fs, hmem, hbad⟩
    · cases v with
      | arr ms => exact absurd rfl (hna ms)
      | undefined => rfl
      | null => rfl
      | bool b => rfl
      | num n => rfl
      | str s => rfl
      | obj fs => rfl
    · have hne : jsEvery customModelElemOk ms ≠ .ok true := by
        intro hall
        have := jsEvery_eq_true_all hall (.obj fs) hmem
        rw [customModelElemOk_of_violation fs hbad] at this
        exact Except.noConfusion this (fun h => Bool.noConfusion h)
      show getCustomModels (.ok (.arr ms)) = ⟨[], some "[]"⟩
      cases hres : jsEvery customModelElemOk ms with
      | error err => simp [getCustomModels, hres]
      | ok b =>
        cases b with
        | true => exact absurd hres hne
        | false => simp [getCustomModels, hres]
  · intro pr
    cases pr with
    | error err => left; rfl
    | ok v' =>
      cases v' with
      | arr ms =>
        cases hres : jsEvery customModelElemOk ms with
        | error err => left; simp [getCustomModels, hres]
        | ok b =>
          cases b with
          | true => right; exact ⟨ms, rfl, by simp [getCustomModels, hres]⟩
          | false => left; simp [getCustomModels, hres]
      | undefined => left; rfl
      | null => left; rfl
      | bool b => left; rfl
      | num n => left; rfl
      | str s => left; rfl
      | obj fs => left; rfl

/-- C3 witness: a non-array blob and an array whose element lacks `id`
both load as `[]` and reset the blob. -/
theorem c3_corrupt_store_witness :
    getCustomModels (.ok (.num 5)) = ⟨[], some "[]"⟩ ∧
    getCustomModels (.ok (.arr [.obj [("service", .str "openai")]])) =
      ⟨[], some "[]"⟩ := by
  constructor
  · exact (c3_corrupt_store_resets (.num 5) "").1 (Or.inl (fun ms => by simp))
  · exact (c3_corrupt_store_resets (.arr [.obj [("service", .str "openai")]]) "").1
      (Or.inr ⟨[.obj [("service", .str "openai")]], rfl,
        [("service", .str "openai")], (by simp), Or.inl rfl⟩)

/-- C4: for every custom descriptor handed to the gemini request builders,
the built `generationConfig` carries `thinkingConfig = {thinkingBudget: 0}`
(thinking disabled) unless the stored capability flag is exactly `true`, in
which case the key is absent altogether (the provider default applies);
this holds for both the summarization and the chat body. -/
theorem c4_custom_gemini_thinking (cfg : ModelConfig) (sp sc : String)
    (hist : List ChatTurn) (hc : cfg.isCustom = true) :
    JObj.get (buildRequestBody "gemini" sp cfg).generationParams "thinkingConfig" =
      (if cfg.supportsThinking = some true then none
       else some (.obj [("thinkingBudget", .num 0)])) ∧
    JObj.get (buildChatRequestBody "gemini" sc hist cfg).generationParams
        "thinkingConfig" =
      (if cfg.supportsThinking = some true then none
       else some (.obj [("thinkingBudget", .num 0)])) := by
  have hsvc : ¬ (("gemini" : String) = "openai") := by decide
  constructor
  · simp only [buildRequestBody, if_neg hsvc, hc, if_true,
      RequestBody.generationParams]
    by_cases hst : cfg.supportsThinking = some true
    · simp [hst, JObj.get_erase_self]
    · simp [hst, JObj.get_insert_self]
  · simp only [buildChatRequestBody, if_neg hsvc, hc, if_true,
      RequestBody.generationParams]
    by_cases hst : cfg.supportsThinking = some true
    · simp [hst, JObj.get_erase_self]
    · simp [hst, JObj.get_insert_self]

/-- C4 witness: a custom gemini descriptor without the flag gets the zero
thinking budget; one with the flag `true` gets no `thinkingConfig` key. -/
theorem c4_custom_gemini_thinking_witness :
    JObj.get (buildRequestBody "gemini" ""
        (customConfig ⟨"my-model", "gemini", none⟩)).generationParams
      "thinkingConfig" = some (.obj [("thinkingBudget", .num 0)]) ∧
    JObj.get (buildRequestBody "gemini" ""
        (customConfig ⟨"my-think", "gemini", some true⟩)).generationParams
      "thinkingConfig" = none := by
  constructor
  · have h := (c4_custom_gemini_thinking
      (customConfig ⟨"my-model", "gemini", none⟩) "" "" [] rfl).1
    simpa using h
  · have h := (c4_custom_gemini_thinking
      (customConfig ⟨"my-think", "gemini", some true⟩) "" "" [] rfl).1
    simpa using h

/-- C5: `addCustomModel` rejects — returning with the in-memory list
unchanged and no persisted write — whenever the new id case-insensitively
collides with a built-in model of the chosen provider or an existing
custom model of that same provider; the check compares lowercased ids, so
it is independent of the input's letter casing. -/
theorem c5_add_rejects_duplicates (cms : List CustomModel)
    (service modelId : String) (st : Option Bool)
    (h : (∃ m ∈ cms, m.service = service ∧ jsToLower m.id = jsToLower modelId) ∨
         (∃ g, (service, g) ∈ MODEL_GROUPS ∧
           ∃ m ∈ g.models, jsToLower m.id = jsToLower modelId)) :
    addCustomModel cms service modelId st = ⟨cms, none⟩ := by
  rcases h with ⟨m, hm, hsv, hid⟩ | ⟨g, hg, m, hm, hid⟩
  · have hc : cms.any (fun m =>
        m.service = service && jsToLower m.id = jsToLower modelId) = true :=
      List.any_eq_true.mpr ⟨m, hm, by simp [hsv, hid]⟩
    simp [addCustomModel, hc]
  · simp only [ MODEL_GROUPS, List.mem_cons, List.not_mem_nil, or_false,
      Prod.mk.injEq] at hg
    have hany : g.models.any (fun m => jsToLower m.id = jsToLower modelId) = true :=
      List.any_eq_true.mpr ⟨m, hm, by simp [hid]⟩
    rcases hg with ⟨rfl, rfl⟩ | ⟨rfl, rfl⟩
    · have hfind : (MODEL_GROUPS.find? (fun g' => g'.1 = "openai")).map (·.2) =
          some openaiGroup := rfl
      simp [addCustomModel, hfind, hany]
    · have hfind : (MODEL_GROUPS.find? (fun g' => g'.1 = "gemini")).map (·.2) =
          some geminiGroup := rfl
      simp [addCustomModel, hfind, hany]

/-- C5 witness: adding `'GPT-4.1'` for openai is rejected (its lowercase
form collides with the built-in `'gpt-4.1'`) and the state is untouched. -/
theorem c5_add_rejects_witness :
    addCustomModel [] "openai" "GPT-4.1" none = ⟨[], none⟩ := by
  have hmem : (("openai", openaiGroup)) ∈ MODEL_GROUPS := by
    simp [ MODEL_GROUPS]
  have hmdl : (⟨"gpt-4.1", "GPT-4.1", none⟩ : BuiltinModel) ∈ openaiGroup.models := by
    simp [openaiGroup]
  exact c5_add_rejects_duplicates [] "openai" "GPT-4.1" none
    (Or.inr ⟨openaiGroup, hmem, ⟨"gpt-4.1", "GPT-4.1", none⟩, hmdl, (by decide)⟩)

theorem mapRatings_pairs (pairs : List (String × String)) :
    mapRatings (pairs.map (fun p =>
      JVal.obj [("category", .str p.1), ("probability", .str p.2)])) =
      .ok (pairs.map (fun p => p.1 ++ ": " ++ p.2)) := by
  induction pairs with
  | nil => rfl
  | cons p t ih =>
    have hr : ratingPair (JVal.obj
        [("category", .str p.1), ("probability", .str p.2)]) =
        .ok (p.1 ++ ": " ++ p.2) := rfl
    simp only [List.map_cons, mapRatings, hr, ih, exceptOkBind]
    rfl

theorem jsJoin_pairs_ne_empty (a b : String) (l : List String) :
    jsJoin ", " ((a ++ ": " ++ b) :: l) ≠ "" := by
  have h2 : String.length ": " = 2 := rfl
  have h0 : String.length "" = 0 := rfl
  cases l with
  | nil =>
    show a ++ ": " ++ b ≠ ""
    intro h
    have hlen := congrArg String.length h
    rw [String.length_append, String.length_append, h2, h0] at hlen
    omega
  | cons x xs =>
    show (a ++ ": " ++ b) ++ ", " ++ jsJoin ", " (x :: xs) ≠ ""
    intro h
    have hlen := congrArg String.length h
    rw [String.length_append, String.length_append, String.length_append,
      String.length_append, h2, h0] at hlen
    omega

theorem exceptErrorBind {α β ε : Type} (e : ε) (f : α → Except ε β) :
    (do let x ← (Except.error e : Except ε α); f x) = .error e := rfl

theorem handleApiResponse_non2xx (resp : ApiResponse) (service : String)
    (h : (decide (resp.status < 200) || decide (300 ≤ resp.status)) = true) :
    handleApiResponse resp service =
      .error ("API Error (" ++ toString resp.status ++ "): " ++
        errorDetails resp.data resp.statusText) := by
  simp only [handleApiResponse, h, if_true, exceptErrorBind]
  rfl

theorem handleApiResponse_raw_error (resp : ApiResponse) (service : String)
    (msg : String)
    (h2 : (decide (resp.status < 200) || decide (300 ≤ resp.status)) = false)
    (hraw : serviceRawSummary service resp.data = .error msg) :
    handleApiResponse resp service = .error msg := by
  simp only [handleApiResponse, h2, Bool.false_eq_true, if_false, hraw,
    exceptPureBind, exceptErrorBind]

theorem serviceRawSummary_safety (data : JVal) (cfs : JObj)
    (pairs : List (String × String))
    (hcand : (data.oprop "candidates").oindex 0 = .obj cfs)
    (hfr : JObj.get cfs "finishReason" = some (.str "SAFETY"))
    (hsr : JObj.get cfs "safetyRatings" = some (.arr (pairs.map (fun p =>
      JVal.obj [("category", .str p.1), ("probability", .str p.2)]))))
    (hne : pairs ≠ []) :
    serviceRawSummary "gemini" data =
      .error ("Content blocked due to safety concerns (" ++
        jsJoin ", " (pairs.map (fun p => p.1 ++ ": " ++ p.2)) ++ ").") := by
  rcases List.exists_cons_of_ne_nil hne with ⟨p, t, rfl⟩
  have hgo : ¬ (("gemini" : String) = "openai") := by decide
  have hjoin := mapRatings_pairs (p :: t)
  have hnem := jsJoin_pairs_ne_empty p.1 p.2 ((t.map (fun q => q.1 ++ ": " ++ q.2)))
  have harr : safetyJoin (.arr ((p :: t).map (fun q =>
      JVal.obj [("category", .str q.1), ("probability", .str q.2)]))) =
      .ok (some (jsJoin ", " ((p :: t).map (fun q => q.1 ++ ": " ++ q.2)))) := by
    simp only [safetyJoin, hjoin]
    rfl
  have hfr2 : (JVal.obj cfs).oprop "finishReason" = .str "SAFETY" := by
    simp [JVal.oprop, hfr]
  have hsr2 : (JVal.obj cfs).prop "safetyRatings" =
      .ok (.arr ((p :: t).map (fun q =>
        JVal.obj [("category", .str q.1), ("probability", .str q.2)]))) := by
    simp [JVal.prop, JVal.oprop, hsr]
  have hseq : jsStrictEqStr (JVal.str "SAFETY") "SAFETY" = true := rfl
  simp only [serviceRawSummary, if_neg hgo, if_pos rfl, hcand, if_true, hfr2,
    hseq, hsr2, harr, exceptOkBind]
  simp [hnem]
  rfl

/-- C6: every 2xx gemini response whose first candidate carries
`finishReason = "SAFETY"` normalizes to a hard failure (no summary)
whose message lists the safety ratings as "category: probability" pairs
joined with ", ". -/
theorem c6_safety_hard_failure (status : Int) (statusText : String)
    (data : JVal) (cfs : JObj) (pairs : List (String × String))
    (h2a : 200 ≤ status) (h2b : status < 300)
    (hcand : (data.oprop "candidates").oindex 0 = .obj cfs)
    (hfr : JObj.get cfs "finishReason" = some (.str "SAFETY"))
    (hsr : JObj.get cfs "safetyRatings" = some (.arr (pairs.map (fun p =>
      JVal.obj [("category", .str p.1), ("probability", .str p.2)]))))
    (hne : pairs ≠ []) :
    handleApiResponse ⟨status, data, statusText⟩ "gemini" =
      .error ("Content blocked due to safety concerns (" ++
        jsJoin ", " (pairs.map (fun p => p.1 ++ ": " ++ p.2)) ++ ").") := by
  have h2 : (decide (status < 200) || decide (300 ≤ status)) = false := by
    simp only [Bool.or_eq_false_iff, decide_eq_false_iff_not]
    omega
  exact handleApiResponse_raw_error ⟨status, data, statusText⟩ "gemini" _ h2
    (serviceRawSummary_safety data cfs pairs hcand hfr hsr hne)

/-- C6 witness: the design's concrete scenario — ratings
`[{category:"X", probability:"HIGH"}]` produce a failure whose message
contains "X: HIGH". -/
theorem c6_safety_witness :
    handleApiResponse ⟨200, .obj [("candidates", .arr [.obj
        [("finishReason", .str "SAFETY"),
         ("safetyRatings", .arr [.obj
           [("category", .str "X"), ("probability", .str "HIGH")]])]])],
      "OK"⟩ "gemini" =
      .error "Content blocked due to safety concerns (X: HIGH)." ∧
    jsIncludes "Content blocked due to safety concerns (X: HIGH)." "X: HIGH" =
      true := by
  constructor
  · have h := c6_safety_hard_failure 200 "OK"
      (.obj [("candidates", .arr [.obj
        [("finishReason", .str "SAFETY"),
         ("safetyRatings", .arr [.obj
           [("category", .str "X"), ("probability", .str "HIGH")]])]])])
      [("finishReason", .str "SAFETY"),
       ("safetyRatings", .arr [.obj
         [("category", .str "X"), ("probability", .str "HIGH")]])]
      [("X", "HIGH")]
      (by decide) (by decide) rfl rfl rfl (by simp)
    simpa using h
  · decide

/-- C7: on any non-2xx status, for either provider, normalization fails
with a message carrying the parsed body's `error.message` when present
(non-empty), otherwise the body's top-level `message`, otherwise the HTTP
status text. -/
theorem c7_non2xx_error_message (status : Int) (statusText : String)
    (data : JVal) (service : String)
    (hnon : status < 200 ∨ 300 ≤ status) :
    (∀ s : String, (data.oprop "error").oprop "message" = .str s → s ≠ "" →
      handleApiResponse ⟨status, data, statusText⟩ service =
        .error ("API Error (" ++ toString status ++ "): " ++ s)) ∧
    (JVal.truthy ((data.oprop "error").oprop "message") = false →
      ∀ s : String, data.oprop "message" = .str s → s ≠ "" →
        handleApiResponse ⟨status, data, statusText⟩ service =
          .error ("API Error (" ++ toString status ++ "): " ++ s)) ∧
    (JVal.truthy ((data.oprop "error").oprop "message") = false →
      JVal.truthy (data.oprop "message") = false → statusText ≠ "" →
        handleApiResponse ⟨status, data, statusText⟩ service =
          .error ("API Error (" ++ toString status ++ "): " ++ statusText)) := by
  have h2 : (decide (status < 200) || decide (300 ≤ status)) = true := by
    rcases hnon with h | h <;> simp [h]
  have hbase := handleApiResponse_non2xx ⟨status, data, statusText⟩ service h2
  refine ⟨?_, ?_, ?_⟩
  · intro s hem hs
    rw [hbase]
    have hdet : errorDetails data statusText = s := by
      simp [errorDetails, jsOr, hem, JVal.truthy, hs, JVal.display]
    rw [hdet]
  · intro hemf s hm hs
    rw [hbase]
    have hdet : errorDetails data statusText = s := by
      have hts : (JVal.str s).truthy = true := by simp [JVal.truthy, hs]
      simp [errorDetails, jsOr, hemf, hm, hts, JVal.display]
    rw [hdet]
  · intro hemf hmf hst
    rw [hbase]
    have hdet : errorDetails data statusText = statusText := by
      have hts : (JVal.str statusText).truthy = true := by
        simp [JVal.truthy, hst]
      simp [errorDetails, jsOr, hemf, hmf, hts, JVal.display]
    rw [hdet]

/-- C7 witness: the design's concrete scenario — status 401 with body
`{error:{message:"invalid key"}}` fails with a message containing
"invalid key", for either provider. -/
theorem c7_non2xx_witness :
    handleApiResponse ⟨401, .obj [("error", .obj [("message",
        .str "invalid key")])], "Unauthorized"⟩ "openai" =
      .error "API Error (401): invalid key" ∧
    handleApiResponse ⟨401, .obj [("error", .obj [("message",
        .str "invalid key")])], "Unauthorized"⟩ "gemini" =
      .error "API Error (401): invalid key" ∧
    jsIncludes "API Error (401): invalid key" "invalid key" = true := by
  refine ⟨?_, ?_, by decide⟩
  · have h := (c7_non2xx_error_message 401 "Unauthorized"
      (.obj [("error", .obj [("message", .str "invalid key")])]) "openai"
      (by omega)).1 "invalid key" rfl (by decide)
    simpa using h
  · have h := (c7_non2xx_error_message 401 "Unauthorized"
      (.obj [("error", .obj [("message", .str "invalid key")])]) "gemini"
      (by omega)).1 "invalid key" rfl (by decide)
    simpa using h

theorem JObj.get_erase_ne (o : JObj) (k k' : String) (h : k ≠ k') :
    (o.erase k').get k = o.get k := by
  induction o with
  | nil => rfl
  | cons kv t ih =>
    by_cases hk : kv.1 = k'
    · have hf : JObj.erase (kv :: t) k' = JObj.erase t k' := by
        simp [JObj.erase, List.filter_cons, hk]
      have hkk : kv.1 ≠ k := by rw [hk]; exact fun hc => h hc.symm
      rw [hf, ih]
      simp [JObj.get, hkk]
    · have hf : JObj.erase (kv :: t) k' = kv :: JObj.erase t k' := by
        simp [JObj.erase, List.filter_cons, hk]
      rw [hf]
      by_cases hkk : kv.1 = k
      · simp [JObj.get, hkk]
      · simp [JObj.get, hkk, ih]

/-- C8 counterexample: a custom gemini descriptor with no params yields a
`generationConfig` that is NOT exactly the provider defaults — the
thinking fallback adds a forced `thinkingConfig` with budget zero. -/
theorem c8_counterexample :
    (customConfig ⟨"my-gemini-model", "gemini", none⟩).params = none ∧
    (buildRequestBody "gemini" ""
        (customConfig ⟨"my-gemini-model", "gemini", none⟩)).generationParams =
      [("maxOutputTokens", .num 1000),
       ("thinkingConfig", .obj [("thinkingBudget", .num 0)])] ∧
    geminiGroup.defaultParams = [("maxOutputTokens", .num 1000)] ∧
    (buildRequestBody "gemini" ""
        (customConfig ⟨"my-gemini-model", "gemini", none⟩)).generationParams ≠
      geminiGroup.defaultParams := by
  refine ⟨rfl, rfl, rfl, ?_⟩
  intro h
  have h2 := congrArg (fun o => JObj.get o "thinkingConfig") h
  have e1 : JObj.get ((buildRequestBody "gemini" ""
      (customConfig ⟨"my-gemini-model", "gemini", none⟩)).generationParams)
      "thinkingConfig" = some (.obj [("thinkingBudget", .num 0)]) := rfl
  have e2 : JObj.get geminiGroup.defaultParams "thinkingConfig" = none := rfl
  simp only [e1, e2] at h2
  exact Option.noConfusion h2

/-- C8 (amended): the request body's generation parameters are the
provider defaults overridden key-by-key by the descriptor's params (the
descriptor wins on shared keys; no params means exactly the defaults) for
openai bodies and for built-in gemini bodies; for custom gemini bodies the
same merge holds on every key except `thinkingConfig`, which the thinking
fallback of C4 forces. -/
theorem c8_param_merge (cfg : ModelConfig) (sp : String) (ps : JObj)
    (k : String) :
    (cfg.params = some ps → (ps.map Prod.fst).Nodup →
      JObj.get (buildRequestBody "openai" sp cfg).generationParams k =
        ((JObj.get ps k).or (JObj.get openaiGroup.defaultParams k))) ∧
    (cfg.params = none →
      (buildRequestBody "openai" sp cfg).generationParams =
        openaiGroup.defaultParams) ∧
    (cfg.isCustom = false → cfg.params = some ps → (ps.map Prod.fst).Nodup →
      JObj.get (buildRequestBody "gemini" sp cfg).generationParams k =
        ((JObj.get ps k).or (JObj.get geminiGroup.defaultParams k))) ∧
    (cfg.isCustom = false → cfg.params = none →
      (buildRequestBody "gemini" sp cfg).generationParams =
        geminiGroup.defaultParams) ∧
    (cfg.isCustom = true → cfg.params = some ps → (ps.map Prod.fst).Nodup →
      k ≠ "thinkingConfig" →
      JObj.get (buildRequestBody "gemini" sp cfg).generationParams k =
        ((JObj.get ps k).or (JObj.get geminiGroup.defaultParams k))) := by
  have hgo : ¬ (("gemini" : String) = "openai") := by decide
  refine ⟨?_, ?_, ?_, ?_, ?_⟩
  · intro hps hnd
    simp only [buildRequestBody, if_pos rfl, RequestBody.generationParams, hps,
      Option.getD_some]
    exact JObj.get_spread _ _ _ hnd
  · intro hps
    simp only [buildRequestBody, if_pos rfl, RequestBody.generationParams, hps,
      Option.getD_none]
    exact JObj.spread_nil _
  · intro hic hps hnd
    simp only [buildRequestBody, if_neg hgo, RequestBody.generationParams, hps,
      hic, Bool.false_eq_true, if_false, Option.getD_some]
    exact JObj.get_spread _ _ _ hnd
  · intro hic hps
    simp only [buildRequestBody, if_neg hgo, RequestBody.generationParams, hps,
      hic, Bool.false_eq_true, if_false, Option.getD_none]
    exact JObj.spread_nil _
  · intro hic hps hnd hk
    simp only [buildRequestBody, if_neg hgo, RequestBody.generationParams, hps,
      hic, if_true, Option.getD_some]
    by_cases hst : cfg.supportsThinking = some true
    · simp only [hst, if_true]
      rw [JObj.get_erase_ne _ _ _ hk]
      exact JObj.get_spread _ _ _ hnd
    · simp only [hst, if_false]
      rw [JObj.get_insert_ne _ _ _ _ (fun hc => hk hc.symm)]
      exact JObj.get_spread _ _ _ hnd

/-- C8 witness: the design's concrete scenario — a descriptor param of
1500 max tokens overrides the provider default of 1000, and a descriptor
without params yields exactly the provider defaults. -/
theorem c8_param_merge_witness :
    JObj.get (buildRequestBody "openai" ""
      { id := "m", name := none,
        params := some [("max_completion_tokens", .num 1500)],
        service := "openai", isCustom := false,
        supportsThinking := none }).generationParams
      "max_completion_tokens" = some (.num 1500) ∧
    (buildRequestBody "openai" ""
      { id := "m2", name := none, params := none, service := "openai",
        isCustom := false,
        supportsThinking := none }).generationParams =
      [("max_completion_tokens", .num 1000)] := by
  constructor
  · have h := (c8_param_merge
      { id := "m", name := none,
        params := some [("max_completion_tokens", .num 1500)],
        service := "openai", isCustom := false, supportsThinking := none }
      "" [("max_completion_tokens", .num 1500)] "max_completion_tokens").1
      rfl (by simp)
    rw [h]
    rfl
  · have h := (c8_param_merge
      { id := "m2", name := none, params := none, service := "openai",
        isCustom := false, supportsThinking := none }
      "" [] "x").2.1 rfl
    rw [h]
    rfl

/-- C9 counterexample: calling removal with a differently-cased id deletes
the active custom descriptor (the removal filter matches
case-insensitively), yet the active model id is NOT reset to the default —
the reset check compares the call's id to the active id with `===`. -/
theorem c9_counterexample :
    jsToLower "Foo" = jsToLower "foo" ∧
    getActiveModelConfig [⟨"Foo", "gemini", none⟩] "Foo" =
      some (customConfig ⟨"Foo", "gemini", none⟩) ∧
    handleModelRemoval [⟨"Foo", "gemini", none⟩] "Foo" "foo" "gemini" =
      ⟨[], [], "Foo", none⟩ ∧
    ("Foo" : String) ≠ "gemini-flash-lite-latest" := by
  exact ⟨by decide, rfl, by decide, by decide⟩

/-- C9 (amended): confirmed removal deletes exactly the custom entries whose
id matches case-insensitively and whose provider matches exactly, and
persists the filtered list; the active id is reset to the fixed default
exactly when the call's modelId equals the active id verbatim — not
whenever the removed descriptor was the active one. -/
theorem c9_removal (cms : List CustomModel) (active modelId service : String) :
    ((handleModelRemoval cms active modelId service).customModels =
      cms.filter (fun m =>
        !(jsToLower m.id = jsToLower modelId && m.service = service))) ∧
    (∀ m ∈ cms,
      (m ∈ (handleModelRemoval cms active modelId service).customModels ↔
        ¬(jsToLower m.id = jsToLower modelId ∧ m.service = service))) ∧
    ((handleModelRemoval cms active modelId service).persistedModels =
      (handleModelRemoval cms active modelId service).customModels) ∧
    ((handleModelRemoval cms active modelId service).activeModel =
      if active = modelId then "gemini-flash-lite-latest" else active) ∧
    ((handleModelRemoval cms active modelId service).persistedActive =
      if active = modelId then some "gemini-flash-lite-latest" else none) := by
  have hmem : ∀ m ∈ cms,
      (m ∈ (handleModelRemoval cms active modelId service).customModels ↔
        ¬(jsToLower m.id = jsToLower modelId ∧ m.service = service)) := by
    intro m hm
    unfold handleModelRemoval
    by_cases ha : active = modelId <;>
      simp [ha, List.mem_filter, hm] <;> tauto
  by_cases ha : active = modelId <;>
    exact ⟨by simp [handleModelRemoval, ha], hmem,
      by simp [handleModelRemoval, ha], by simp [handleModelRemoval, ha],
      by simp [handleModelRemoval, ha]⟩

/-- C9 witness: removing the active custom model with the exact id deletes
it and resets the active id to the fixed default. -/
theorem c9_removal_witness :
    (handleModelRemoval [⟨"m1", "gemini", none⟩] "m1" "m1" "gemini").customModels
      = [] ∧
    (handleModelRemoval [⟨"m1", "gemini", none⟩] "m1" "m1" "gemini").activeModel
      = "gemini-flash-lite-latest" ∧
    ¬((⟨"m1", "gemini", none⟩ : CustomModel) ∈
      (handleModelRemoval [⟨"m1", "gemini", none⟩] "m1" "m1" "gemini").customModels) := by
  have h := c9_removal [⟨"m1", "gemini", none⟩] "m1" "m1" "gemini"
  refine ⟨?_, ?_, ?_⟩
  · rw [h.1]; decide
  · rw [h.2.2.2.1]; simp
  · intro hmem
    exact ((h.2.1 _ (by simp)).mp hmem) ⟨by decide, rfl⟩

/-- C10: resolution checks every provider's built-in list (by exact id)
before any custom entry and disregards the custom entry's provider: for
every custom list, a built-in id resolves to that built-in descriptor
carrying the owning provider's service; meanwhile the add-time duplicate
check, restricted to the chosen provider, happily creates a custom model
whose id equals a built-in id of the other provider — an entry resolution
then never returns. -/
theorem c10_builtin_priority (cms : List CustomModel) :
    (∀ svc g m, (svc, g) ∈ MODEL_GROUPS → m ∈ g.models →
      getActiveModelConfig cms m.id = some (builtinConfig svc m)) ∧
    ((¬ ∃ m ∈ cms, m.service = "openai" ∧
        jsToLower m.id = jsToLower "gemini-flash-lite-latest") →
      addCustomModel cms "openai" "gemini-flash-lite-latest" none =
        ⟨cms ++ [⟨"gemini-flash-lite-latest", "openai", none⟩],
         some (cms ++ [⟨"gemini-flash-lite-latest", "openai", none⟩])⟩) := by
  constructor
  · intro svc g m hg hm
    simp only [ MODEL_GROUPS, List.mem_cons, List.not_mem_nil, or_false,
      Prod.mk.injEq] at hg
    rcases hg with ⟨rfl, rfl⟩ | ⟨rfl, rfl⟩
    · simp only [openaiGroup, List.mem_cons, List.not_mem_nil, or_false] at hm
      rcases hm with rfl | rfl | rfl | rfl | rfl
      · rfl
      · rfl
      · rfl
      · rfl
      · rfl
    · simp only [geminiGroup, List.mem_cons, List.not_mem_nil, or_false] at hm
      rcases hm with rfl | rfl | rfl
      · rfl
      · rfl
      · rfl
  · intro hno
    have hc : cms.any (fun m => m.service = "openai" &&
        jsToLower m.id = jsToLower "gemini-flash-lite-latest") = false := by
      rw [List.any_eq_false]
      intro m hm
      simp only [Bool.and_eq_true, decide_eq_true_eq, not_and]
      intro hs hl
      exact hno ⟨m, hm, hs, hl⟩
    have hstd : openaiGroup.models.any (fun m =>
        jsToLower m.id = jsToLower "gemini-flash-lite-latest") = false := by
      decide
    have hfind : (MODEL_GROUPS.find? (fun g => g.1 = "openai")).map (·.2) =
        some openaiGroup := rfl
    simp [addCustomModel, hc, hfind, hstd]

/-- C10 witness: with a custom openai entry whose id is the gemini built-in
`gemini-flash-lite-latest` in the list, resolving that id still yields the
gemini built-in descriptor (service "gemini", not custom); and the entry
itself is creatable from an empty list. -/
theorem c10_builtin_priority_witness :
    getActiveModelConfig [⟨"gemini-flash-lite-latest", "openai", none⟩]
      "gemini-flash-lite-latest" =
      some (builtinConfig "gemini"
        ⟨"gemini-flash-lite-latest", "Gemini Flash Lite (faster)",
         some [("maxOutputTokens", .num HIGH_MAX_TOKENS),
               ("thinkingConfig", .obj [("thinkingBudget", .num 0)])]⟩) ∧
    addCustomModel [] "openai" "gemini-flash-lite-latest" none =
      ⟨[⟨"gemini-flash-lite-latest", "openai", none⟩],
       some [⟨"gemini-flash-lite-latest", "openai", none⟩]⟩ := by
  constructor
  · have hgmem : (("gemini", geminiGroup)) ∈ MODEL_GROUPS := by
      simp [ MODEL_GROUPS]
    have hmmem : (⟨"gemini-flash-lite-latest", "Gemini Flash Lite (faster)",
        some [("maxOutputTokens", .num HIGH_MAX_TOKENS),
              ("thinkingConfig", .obj [("thinkingBudget", .num 0)])]⟩ :
        BuiltinModel) ∈ geminiGroup.models := by
      simp [geminiGroup]
    exact (c10_builtin_priority
      [⟨"gemini-flash-lite-latest", "openai", none⟩]).1 "gemini" geminiGroup _
      hgmem hmmem
  · exact (c10_builtin_priority []).2 (by simp)
